import Mathlib

/-!
Shallow embedding of the posify receipt-printer protocol layer
(src/barcode.rs and src/printer.rs) together with proofs about the
barcode encoder, the status decoder, and the banded bit-image encoder.

Byte values are modelled as `Nat` (the source uses `u8`; wherever the
source narrows with `as u8` the embedding takes `% 256` explicitly).
Strings are modelled as `List Char`; the source's byte-oriented
operations (`str::len`, `str::as_bytes`) go through an explicit UTF-8
encoder so that character count and byte count are distinguished
exactly as in Rust.  A write to the transport is modelled by appending
the written bytes to the output trace, so an operation denotes the
list of bytes it puts on the wire.
-/

namespace Posify

/-- The `SupportedPrinters` enum from printer.rs: the three known
command dialects plus `Unknown`. -/
inductive SupportedPrinters where
  | SNBC
  | P3
  | Epic
  | Unknown
deriving DecidableEq, Repr

/-- The `Error` enum from printer.rs (transport variants carry no
payload in the model; only the constructor matters for the claims). -/
inductive Error where
  | Usb
  | Io
  | InvalidIndex
  | InvalidArgument
  | NoLanguages
  | InvalidEndpoints
  | Timeout
  | NotFound
  | Unsupported
deriving DecidableEq, Repr

/-- The `StatusError` enum from printer.rs: hardware condition flags
reported by `get_status`. -/
inductive StatusError where
  | Communication
  | Online
  | Offline
  | DoorOpen
  | PaperFeed
  | AutoCutter
  | Recoverable
  | AutomaticallyRecoverable
  | PaperNearEnd
  | PaperEnd
deriving DecidableEq, Repr

/-- The `CodeCError` enum from barcode.rs. -/
inductive CodeCError where
  | NotANumber
  | InvalidLength
deriving DecidableEq, Repr

/-- The `BarcodeType` enum from barcode.rs. -/
inductive BarcodeType where
  | UPCA
  | UPCE
  | EAN13
  | EAN8
  | CODE39
  | ITF
  | Code93
  | Codabar
  | Code128
  | PDF417
  | QRCode
  | Maxicode
  | GS1
deriving DecidableEq, Repr

/-- The `TextPosition` enum from barcode.rs (HRI text position). -/
inductive TextPosition where
  | Off
  | Above
  | Below
  | Both
deriving DecidableEq, Repr

/-- The `Font` enum from barcode.rs. -/
inductive Font where
  | Standard
  | Compressed
  | FontA
  | FontB
deriving DecidableEq, Repr

/-- The `Barcode` struct from barcode.rs.  `width` and `height` are
`u8` in the source; they are carried as `Nat` here. -/
structure Barcode where
  printer : SupportedPrinters
  width : Nat
  height : Nat
  font : Font
  kind : BarcodeType
  position : TextPosition

/-- Rust `char::is_ascii_digit`: the character is one of '0'..='9'. -/
def isAsciiDigit (c : Char) : Bool :=
  48 ≤ c.toNat && c.toNat ≤ 57

/-- UTF-8 encoding of one unicode scalar value, as Rust `String` stores
characters. -/
def utf8EncodeChar (c : Char) : List Nat :=
  let n := c.toNat
  if n < 0x80 then [n]
  else if n < 0x800 then [0xC0 + n / 64, 0x80 + n % 64]
  else if n < 0x10000 then
    [0xE0 + n / 4096, 0x80 + n / 64 % 64, 0x80 + n % 64]
  else
    [0xF0 + n / 262144, 0x80 + n / 4096 % 64, 0x80 + n / 64 % 64, 0x80 + n % 64]

/-- The UTF-8 bytes of a string (Rust `str::as_bytes`); its length is
Rust `str::len`. -/
def strBytes : List Char → List Nat
  | [] => []
  | c :: cs => utf8EncodeChar c ++ strBytes cs

/-- Decimal parse of successive 2-byte groups of ASCII digit bytes:
the loop at the end of `Barcode::to_codeset_c` (barcode.rs), which
slices the string into 2-byte substrings at even byte indices and
`parse`s each as `u8`.  For two digit bytes `a b` the parse result is
`10*(a-48) + (b-48)`. -/
def pairBytes : List Nat → List Nat
  | a :: b :: rest => (10 * (a - 48) + (b - 48)) :: pairBytes rest
  | _ => []

/-- `Barcode::to_codeset_c` from barcode.rs: reject if any character is
not an ASCII digit (`NotANumber`), then reject odd byte length
(`InvalidLength`), then convert digit pairs. -/
def to_codeset_c (barcode : List Char) : Except CodeCError (List Nat) :=
  if barcode.all isAsciiDigit = false then .error .NotANumber
  else if (strBytes barcode).length % 2 ≠ 0 then .error .InvalidLength
  else .ok (pairBytes (strBytes barcode))

/-- `Barcode::set_width` from barcode.rs: SNBC keeps a requested width
in 2..=6 and falls back to 2; P3 keeps 1..=6 and falls back to 3; Epic
always emits 0x01; other printers are unsupported. -/
def set_width (bc : Barcode) : Except Error (List Nat) :=
  match bc.printer with
  | .SNBC =>
    if 2 ≤ bc.width ∧ bc.width ≤ 6 then .ok [0x1d, 0x77, bc.width]
    else .ok [0x1d, 0x77, 0x02]
  | .P3 =>
    if 1 ≤ bc.width ∧ bc.width ≤ 6 then .ok [0x1d, 0x77, bc.width]
    else .ok [0x1d, 0x77, 0x03]
  | .Epic => .ok [0x1d, 0x77, 0x1]
  | _ => .error .Unsupported

/-- `Barcode::set_height` from barcode.rs. -/
def set_height (bc : Barcode) : List Nat :=
  [0x1d, 0x68, bc.height]

/-- `Barcode::set_text_position` from barcode.rs. -/
def set_text_position (bc : Barcode) : List Nat :=
  match bc.position with
  | .Off => [0x1d, 0x48, 0x00]
  | .Above => [0x1d, 0x48, 0x01]
  | .Below => [0x1d, 0x48, 0x02]
  | .Both => [0x1d, 0x48, 0x03]

/-- `Barcode::set_font` from barcode.rs. -/
def set_font (bc : Barcode) : List Nat :=
  match bc.font with
  | .Standard => [0x1d, 0x66, 0x00]
  | .Compressed => [0x1d, 0x66, 0x01]
  | .FontA => [0x1d, 0x66, 0x00]
  | .FontB => [0x1d, 0x66, 0x01]

/-- `Barcode::set_barcode_type` from barcode.rs. -/
def set_barcode_type (bc : Barcode) : List Nat :=
  match bc.kind with
  | .EAN13 => [0x1d, 0x6b, 0x02]
  | .Code128 =>
    if bc.printer = .SNBC then [0x1d, 0x6b, 0x49] else [0x1d, 0x6b, 0x08]
  | _ => [0x1d, 0x6b, 0x02]

/-- The Code128 payload block built in the SNBC branch of
`Printer::barcode` (printer.rs lines 703-719): a `0x7b` escape, the
codeset selector (0x43 for Codeset C when the text has even byte
length and is all ASCII digits, else 0x42 for Codeset B), the encoded
payload, and finally the total byte count inserted in front (narrowed
`as u8`).  The source `unwrap`s the `to_codeset_c` result; the model
takes the `Ok` payload with an unreachable `[]` default. -/
def snbcPayloadBlock (code : List Char) : List Nat :=
  let body :=
    if (strBytes code).length % 2 = 0 ∧ code.all isAsciiDigit then
      0x7b :: 0x43 :: ((to_codeset_c code).toOption.getD [])
    else
      0x7b :: 0x42 :: strBytes code
  body.length % 256 :: body

/-- `Printer::barcode` from printer.rs, as the byte trace it writes:
the SNBC Code128 branch writes the five selector commands and then the
length-prefixed payload block; the Epic branch writes a fixed header
(HRI below, width 0x02, symbology 0x49, text byte count) followed by
the raw text bytes and a terminating NUL; every other combination is
`Unsupported`. -/
def barcode_bytes (printer : SupportedPrinters) (code : List Char)
    (kind : BarcodeType) (position : TextPosition) (font : Font)
    (width height : Nat) : Except Error (List Nat) :=
  let bc : Barcode := ⟨printer, width, height, font, kind, position⟩
  if kind = BarcodeType.Code128 ∧ printer = SupportedPrinters.SNBC then
    match set_width bc with
    | .error e => .error e
    | .ok wbytes =>
      .ok (wbytes ++ set_height bc ++ set_text_position bc ++ set_font bc ++
        set_barcode_type bc ++ snbcPayloadBlock code)
  else if printer = SupportedPrinters.Epic then
    .ok ([0x1D, 0x48, 0x02, 0x1D, 0x77, 0x02, 0x1D, 0x6B, 0x49,
      (strBytes code).length % 256] ++ strBytes code ++ [0x00])
  else
    .error .Unsupported

/-! ## Status decoding (`Printer::get_status`, printer.rs) -/

/-- Outcome of one Epic status poll at the transport: whether the
5-byte command write succeeded, and the read result (`none` for a
transport error, `some bs` for `Ok` with `bs.length` bytes
transferred). -/
structure EpicPollOutcome where
  writeOk : Bool
  readRes : Option (List Nat)
deriving DecidableEq, Repr

/-- Transport oracle for a `get_status` call: the SNBC 16-byte bulk
read result, and the per-poll outcomes for the Epic dialect's four
polls. -/
structure StatusTransport where
  snbcRead : Option (List Nat)
  epicPoll : Nat → EpicPollOutcome

/-- The SNBC bit table of `get_status` (printer.rs lines 1014-1045),
applied to the first three buffer bytes, pushing flags in source
order.  Bit constants from printer.rs: OFFLINE_BIT = 3,
DOOR_STATUS_BIT = 5, PAPER_FEED_BIT = 6, AUTO_CUTTER_BIT = 3,
RECOVERABLE_BIT = 5, AUTOMATIC_RECOVERABLE_BIT = 6,
PAPER_NEAR_END_BIT = 0, PAPER_BIT = 2. -/
def snbcStatusErrors (b0 b1 b2 : Nat) : List StatusError :=
  (if (b0 >>> 3) &&& 1 = 1 then [StatusError.Offline] else [StatusError.Online]) ++
  (if (b0 >>> 5) &&& 1 = 1 then [StatusError.DoorOpen] else []) ++
  (if (b0 >>> 6) &&& 1 = 1 then [StatusError.PaperFeed] else []) ++
  (if (b1 >>> 3) &&& 1 = 1 then [StatusError.AutoCutter] else []) ++
  (if (b1 >>> 5) &&& 1 = 1 then [StatusError.Recoverable] else []) ++
  (if (b1 >>> 6) &&& 1 = 1 then [StatusError.AutomaticallyRecoverable] else []) ++
  (if (b2 >>> 0) &&& 0b11 = 0b11 then [StatusError.PaperNearEnd] else []) ++
  (if (b2 >>> 2) &&& 0b11 = 0b11 then [StatusError.PaperEnd] else [])

/-- The fixed 5-byte Epic status poll command built in the loop of
`get_status`: `[0x1B, 0x40, 0x10, 0x04, i + 1]` for loop index `i`. -/
def epicCmd (seq : Nat) : List Nat :=
  [0x1B, 0x40, 0x10, 0x04, seq]

/-- Overwrite `l` starting at index `i` with the bytes of `bs` that
fit (the Rust read writes into the slice `data_in[i..]` of the 16-byte
array). -/
def listWriteAt (l : List Nat) (i : Nat) (bs : List Nat) : List Nat :=
  (List.range l.length).map fun j =>
    if i ≤ j ∧ j < i + bs.length then bs.getD (j - i) 0 else l.getD j 0

/-- One iteration of the Epic poll loop (printer.rs lines 1051-1070):
a failed write pushes `Communication`; the read either fails (pushes
`Communication`, buffer unchanged) or transfers its bytes into
`data_in[i..]`, pushing `Communication` when the transferred count is
not 1.  Returns the command written, the errors pushed, and the
updated buffer. -/
def epicPollStep (d : List Nat) (i : Nat) (o : EpicPollOutcome) :
    List Nat × List StatusError × List Nat :=
  let werrs := if o.writeOk then [] else [StatusError.Communication]
  match o.readRes with
  | none => (epicCmd (i + 1), werrs ++ [StatusError.Communication], d)
  | some bs =>
    (epicCmd (i + 1),
     werrs ++ (if bs.length ≠ 1 then [StatusError.Communication] else []),
     listWriteAt d i bs)

/-- The Epic poll loop of `get_status`, unrolled over its fixed four
iterations: the written command trace, the accumulated communication
errors, and the final 16-byte `data_in` buffer (initially zeroed). -/
def epicStatusRun (t : StatusTransport) :
    List (List Nat) × List StatusError × List Nat :=
  let s0 := epicPollStep (List.replicate 16 0) 0 (t.epicPoll 0)
  let s1 := epicPollStep s0.2.2 1 (t.epicPoll 1)
  let s2 := epicPollStep s1.2.2 2 (t.epicPoll 2)
  let s3 := epicPollStep s2.2.2 3 (t.epicPoll 3)
  ([s0.1, s1.1, s2.1, s3.1], s0.2.1 ++ s1.2.1 ++ s2.2.1 ++ s3.2.1, s3.2.2)

/-- The Epic flag decode after the poll loop (printer.rs lines
1071-1082).  Byte constants from printer.rs: EPIC_STATUS_BYTE_0/1/2 =
0/1/2, EPIC_STATUS_OFFLINE_BIT = 3, EPIC_STATUS_COVER_OPEN_BIT = 2,
EPIC_STATUS_PAPER_END_BIT = 5, EPIC_STATUS_AUTO_CUTTER_BIT = 3.  Note
the source tests `byte >> bit == 1` (shift-equality), not
`(byte >> bit) & 1 == 1`. -/
def epicDecode (d : List Nat) : List StatusError :=
  (if d.getD 0 0 >>> 3 = 1 then [StatusError.Offline] else []) ++
  (if d.getD 1 0 >>> 2 = 1 then [StatusError.DoorOpen] else []) ++
  (if d.getD 1 0 >>> 5 = 1 then [StatusError.PaperEnd] else []) ++
  (if d.getD 2 0 >>> 3 = 1 then [StatusError.AutoCutter] else [])

/-- The error list `get_status` accumulates for each dialect: SNBC
reads the 16-byte buffer (a failed read is a lone `Communication`
error, returned at once) and applies the bit table to bytes 0-2; Epic
runs the four-poll loop and then the byte decode; P3 and Unknown
collect nothing. -/
def statusErrorsOf (printer : SupportedPrinters) (t : StatusTransport) :
    List StatusError :=
  match printer with
  | .SNBC =>
    match t.snbcRead with
    | none => [StatusError.Communication]
    | some buf =>
      snbcStatusErrors (buf.getD 0 0) (buf.getD 1 0) (buf.getD 2 0)
  | .Epic =>
    let (_, errs, d) := epicStatusRun t
    errs ++ epicDecode d
  | .P3 => []
  | .Unknown => []

/-- `Printer::get_status` from printer.rs: collect the dialect's
errors, then return `Ok ()` when none were collected and `Err` of the
non-empty list otherwise. -/
def get_status (printer : SupportedPrinters) (t : StatusTransport) :
    Except (List StatusError) Unit :=
  let errors := statusErrorsOf printer t
  if errors = [] then .ok () else .error errors

/-! ## Bit-image encoding (`Printer::bit_image`, printer.rs) -/

/-- `Printer::line_space` from printer.rs: `[0x1b, 0x33, n]` for `n`
in 0..=255, else the reset-to-default command `[0x1b, 0x32]`. -/
def line_space_bytes (n : Int) : List Nat :=
  if 0 ≤ n ∧ n ≤ 255 then [0x1b, 0x33, n.toNat] else [0x1b, 0x32]

/-- `Printer::feed` from printer.rs: `n` newline bytes, with `n`
clamped up to 1. -/
def feed_bytes (n : Nat) : List Nat :=
  List.replicate (if n < 1 then 1 else n) 0x0a

/-- `Printer::write_u16le` from printer.rs: two little-endian bytes. -/
def u16le (n : Nat) : List Nat :=
  [n % 256, n / 256 % 256]

/-- Modelled from the spec: the `Image` type lives in src/img.rs which
is not among the provided sources.  Spec section 3 describes it as an
externally owned `{width, height, packed 1-bit-per-pixel bitmap}`;
rows are packed most-significant-bit first, `(width + 7) / 8` bytes
per row. -/
structure Image where
  width : Nat
  height : Nat
  data : List Nat

/-- Modelled from the spec: pixel accessor of the packed row-major
1-bit bitmap. -/
def Image.pixel (img : Image) (x y : Nat) : Bool :=
  (img.data.getD (y * ((img.width + 7) / 8) + x / 8) 0).testBit (7 - x % 8)

/-- Modelled from the spec: one packed column byte of a bit-image
band starting at row `r0`: vertical slice `k` of column `x`, rows
`r0 + 8*k` .. `r0 + 8*k + 7`, first row in the most significant
bit. -/
def Image.columnByte (img : Image) (r0 x k : Nat) : Nat :=
  (List.range 8).foldl
    (fun acc j => acc * 2 + (if img.pixel x (r0 + 8 * k + j) then 1 else 0)) 0

/-- Modelled from the spec: `Image::bitimage_lines` from src/img.rs is
not among the provided sources.  Per spec sections 4.4 and 6 it is an
accessor producing successive horizontal row-bands of the requested
row count (`n*8` rows per band, the last band holding the remaining
rows), each band packed column-major with `bandRows / 8` bytes per
column, so a band carries `width * (bandRows / 8)` bytes. -/
def Image.bitimage_lines (img : Image) (bandRows : Nat) : List (List Nat) :=
  (List.range ((img.height + bandRows - 1) / bandRows)).map fun b =>
    (List.range img.width).flatMap fun x =>
      (List.range (bandRows / 8)).map fun k =>
        img.columnByte (b * bandRows) x k

/-- `Printer::bit_image` from printer.rs, as the byte trace it
writes.  The four density header byte strings are the constants
`BITMAP_S8/D8/S24/D24` from src/consts.rs, which is not among the
provided sources; they are taken as parameters.  The header is chosen
by the upper-cased density token (per-character upper-casing, which
agrees with Rust `to_uppercase` on the ASCII tokens involved), but the
band factor `n` compares the raw token against the lowercase literals
"s8" and "d8". -/
def bit_image (hdrS8 hdrD8 hdrS24 hdrD24 : List Nat) (img : Image)
    (density : Option String) : List Nat :=
  let density := density.getD "d24"
  let header :=
    match (⟨density.data.map Char.toUpper⟩ : String) with
    | "S8" => hdrS8
    | "D8" => hdrD8
    | "S24" => hdrS24
    | _ => hdrD24
  let n := if density = "s8" ∨ density = "d8" then 1 else 3
  line_space_bytes 0 ++
    (img.bitimage_lines (n * 8)).flatMap fun line =>
      header ++ u16le (line.length / n) ++ line ++ feed_bytes 1

/-! ## Claim-side reference definitions

These restate what the specification's sentences describe, to be
compared against the source-derived definitions above. -/

/-- Codeset C conversion as the spec words it: split the text into
consecutive 2-character groups left to right and parse each group of
digits as a decimal integer 0-99. -/
def codesetCSpec : List Char → List Nat
  | a :: b :: rest => (10 * (a.toNat - 48) + (b.toNat - 48)) :: codesetCSpec rest
  | _ => []

/-- The SNBC Code128 payload block exactly as claim C6 words it: a
one-byte total-length prefix counting the bytes that follow, then the
codeset-selector byte, then the encoded payload — with no other
byte. -/
def c6ClaimBlock (code : List Char) : List Nat :=
  let payload :=
    if (strBytes code).length % 2 = 0 ∧ code.all isAsciiDigit then
      pairBytes (strBytes code)
    else strBytes code
  let sel :=
    if (strBytes code).length % 2 = 0 ∧ code.all isAsciiDigit then 0x43 else 0x42
  (payload.length + 1) :: sel :: payload

/-- The SNBC Code128 payload block as amended: a one-byte total-length
prefix (count taken mod 256), then the `0x7b` code-set escape byte,
then the codeset-selector byte, then the encoded payload. -/
def c6AmendedBlock (code : List Char) : List Nat :=
  let payload :=
    if (strBytes code).length % 2 = 0 ∧ code.all isAsciiDigit then
      pairBytes (strBytes code)
    else strBytes code
  let sel :=
    if (strBytes code).length % 2 = 0 ∧ code.all isAsciiDigit then 0x43 else 0x42
  (payload.length + 2) % 256 :: 0x7b :: sel :: payload

/-- Per-poll communication errors as claim C8 words them: one
`Communication` entry for a failed write, and one for a read that did
not transfer exactly one byte (a read that fails outright transfers
nothing). -/
def c8PollErrs (o : EpicPollOutcome) : List StatusError :=
  (if o.writeOk then [] else [StatusError.Communication]) ++
  (match o.readRes with
   | none => [StatusError.Communication]
   | some bs => if bs.length ≠ 1 then [StatusError.Communication] else [])

/-! ## Helper lemmas -/

/-- ASCII digits are below 128, so they UTF-8 encode as themselves. -/
theorem utf8EncodeChar_of_lt (c : Char) (h : c.toNat < 128) :
    utf8EncodeChar c = [c.toNat] := by
  unfold utf8EncodeChar
  rw [if_pos h]

/-- For a string of ASCII digits the UTF-8 bytes are exactly the
character codes. -/
theorem strBytes_of_digits (s : List Char) (h : s.all isAsciiDigit = true) :
    strBytes s = s.map Char.toNat := by
  induction s with
  | nil => rfl
  | cons c cs ih =>
    rw [List.all_cons, Bool.and_eq_true] at h
    have hc : c.toNat < 128 := by
      have h1 := h.1
      unfold isAsciiDigit at h1
      rw [Bool.and_eq_true, decide_eq_true_iff, decide_eq_true_iff] at h1
      omega
    simp [strBytes, utf8EncodeChar_of_lt c hc, ih h.2]

/-- Splitting the character codes into decimal pairs agrees with
splitting the characters. -/
theorem pairBytes_map_toNat :
    ∀ s : List Char, pairBytes (s.map Char.toNat) = codesetCSpec s
  | [] => rfl
  | [_] => rfl
  | a :: b :: rest => by
    simp [pairBytes, codesetCSpec, pairBytes_map_toNat rest]

/-- `pairBytes` never lengthens the input. -/
theorem pairBytes_length_le : ∀ l : List Nat, (pairBytes l).length ≤ l.length
  | [] => by simp [pairBytes]
  | [_] => by simp [pairBytes]
  | _ :: _ :: rest => by
    simp only [pairBytes, List.length_cons]
    have := pairBytes_length_le rest
    omega

/-- Under the guard of the SNBC Code128 Codeset C branch,
`to_codeset_c` succeeds. -/
theorem to_codeset_c_of_evenAllDigits (code : List Char)
    (h1 : (strBytes code).length % 2 = 0) (h2 : code.all isAsciiDigit = true) :
    to_codeset_c code = .ok (pairBytes (strBytes code)) := by
  simp [to_codeset_c, h1, h2]

/-- Membership in a condition-guarded singleton list. -/
theorem mem_ite_singleton {p : Prop} [Decidable p] {a b : StatusError} :
    (a ∈ if p then [b] else ([] : List StatusError)) ↔ p ∧ a = b := by
  split <;> simp_all

/-- Membership in a two-way conditional singleton list. -/
theorem mem_ite_pair {p : Prop} [Decidable p] {a x y : StatusError} :
    (a ∈ if p then [x] else [y]) ↔ (p ∧ a = x) ∨ (¬p ∧ a = y) := by
  split <;> simp_all

/-- Single-bit test written with shift and mask equals `Nat.testBit`. -/
theorem land_one_eq_one_iff_testBit (b i : Nat) :
    ((b >>> i) &&& 1 = 1) ↔ b.testBit i = true := by
  rw [Nat.and_one_is_mod, Nat.shiftRight_eq_div_pow, Nat.testBit_to_div_mod]
  simp

/-- Masking with 0b11 is reduction modulo 4. -/
theorem land_three_eq_mod (b : Nat) : b &&& 3 = b % 4 := by
  have h : (3 : Nat) = 2 ^ 2 - 1 := rfl
  rw [h, Nat.and_pow_two_sub_one_eq_mod]

/-- Flag membership characterisation for the SNBC status decode. -/
theorem snbc_mem_offline (b0 b1 b2 : Nat) :
    StatusError.Offline ∈ snbcStatusErrors b0 b1 b2 ↔ b0.testBit 3 = true := by
  simp [snbcStatusErrors, List.mem_append, mem_ite_singleton, mem_ite_pair,
    Nat.testBit_to_div_mod, Nat.shiftRight_eq_div_pow, decide_eq_true_iff]

/-- `Online` is recorded exactly when the offline bit is clear. -/
theorem snbc_mem_online (b0 b1 b2 : Nat) :
    StatusError.Online ∈ snbcStatusErrors b0 b1 b2 ↔ b0.testBit 3 = false := by
  simp [snbcStatusErrors, List.mem_append, mem_ite_singleton, mem_ite_pair,
    Nat.testBit_to_div_mod, Nat.shiftRight_eq_div_pow, decide_eq_true_iff]

/-- Flag membership characterisation for the SNBC status decode. -/
theorem snbc_mem_doorOpen (b0 b1 b2 : Nat) :
    StatusError.DoorOpen ∈ snbcStatusErrors b0 b1 b2 ↔ b0.testBit 5 = true := by
  simp [snbcStatusErrors, List.mem_append, mem_ite_singleton, mem_ite_pair,
    Nat.testBit_to_div_mod, Nat.shiftRight_eq_div_pow, decide_eq_true_iff]

/-- Flag membership characterisation for the SNBC status decode. -/
theorem snbc_mem_paperFeed (b0 b1 b2 : Nat) :
    StatusError.PaperFeed ∈ snbcStatusErrors b0 b1 b2 ↔ b0.testBit 6 = true := by
  simp [snbcStatusErrors, List.mem_append, mem_ite_singleton, mem_ite_pair,
    Nat.testBit_to_div_mod, Nat.shiftRight_eq_div_pow, decide_eq_true_iff]

/-- Flag membership characterisation for the SNBC status decode. -/
theorem snbc_mem_autoCutter (b0 b1 b2 : Nat) :
    StatusError.AutoCutter ∈ snbcStatusErrors b0 b1 b2 ↔ b1.testBit 3 = true := by
  simp [snbcStatusErrors, List.mem_append, mem_ite_singleton, mem_ite_pair,
    Nat.testBit_to_div_mod, Nat.shiftRight_eq_div_pow, decide_eq_true_iff]

/-- Flag membership characterisation for the SNBC status decode. -/
theorem snbc_mem_recoverable (b0 b1 b2 : Nat) :
    StatusError.Recoverable ∈ snbcStatusErrors b0 b1 b2 ↔ b1.testBit 5 = true := by
  simp [snbcStatusErrors, List.mem_append, mem_ite_singleton, mem_ite_pair,
    Nat.testBit_to_div_mod, Nat.shiftRight_eq_div_pow, decide_eq_true_iff]

/-- Flag membership characterisation for the SNBC status decode. -/
theorem snbc_mem_autoRecoverable (b0 b1 b2 : Nat) :
    StatusError.AutomaticallyRecoverable ∈ snbcStatusErrors b0 b1 b2 ↔
      b1.testBit 6 = true := by
  simp [snbcStatusErrors, List.mem_append, mem_ite_singleton, mem_ite_pair,
    Nat.testBit_to_div_mod, Nat.shiftRight_eq_div_pow, decide_eq_true_iff]

/-- Flag membership characterisation for the SNBC status decode: the
2-bit field of byte 2 at bit-offset 0 must equal 0b11. -/
theorem snbc_mem_paperNearEnd (b0 b1 b2 : Nat) :
    StatusError.PaperNearEnd ∈ snbcStatusErrors b0 b1 b2 ↔ b2 % 4 = 3 := by
  simp [snbcStatusErrors, List.mem_append, mem_ite_singleton, mem_ite_pair,
    Nat.shiftRight_zero, land_three_eq_mod]

/-- Flag membership characterisation for the SNBC status decode: the
2-bit field of byte 2 at bit-offset 2 must equal 0b11. -/
theorem snbc_mem_paperEnd (b0 b1 b2 : Nat) :
    StatusError.PaperEnd ∈ snbcStatusErrors b0 b1 b2 ↔ b2 / 4 % 4 = 3 := by
  have h : b2 >>> 2 = b2 / 4 := by
    rw [Nat.shiftRight_eq_div_pow]
  simp [snbcStatusErrors, List.mem_append, mem_ite_singleton, mem_ite_pair, h,
    land_three_eq_mod]

/-- The SNBC decode always records at least one flag (`Offline` or
`Online`). -/
theorem snbcStatusErrors_ne_nil (b0 b1 b2 : Nat) :
    snbcStatusErrors b0 b1 b2 ≠ [] := by
  unfold snbcStatusErrors
  split <;> simp

/-- Decidable equality of `Except` results, for evaluating the
embedded operations on concrete inputs. -/
instance {ε α : Type} [DecidableEq ε] [DecidableEq α] :
    DecidableEq (Except ε α) := fun x y =>
  match x, y with
  | .ok a, .ok b =>
    if h : a = b then .isTrue (by rw [h])
    else .isFalse (fun he => h (Except.ok.inj he))
  | .error a, .error b =>
    if h : a = b then .isTrue (by rw [h])
    else .isFalse (fun he => h (Except.error.inj he))
  | .ok _, .error _ => .isFalse (fun he => Except.noConfusion he)
  | .error _, .ok _ => .isFalse (fun he => Except.noConfusion he)

/-! ## Claim theorems -/

/-- Claim C1: for every input string, `to_codeset_c` returns
`NotANumber` if some character is not an ASCII digit, otherwise
`InvalidLength` if the length is odd, otherwise `Ok` of the decimal
parse of the consecutive 2-character groups; in particular "00" maps
to `[0x00]`, "01" to `[0x01]` and "1234" to `[0x0c, 0x22]`. -/
theorem claim1_to_codeset_c :
    (∀ s : List Char,
      to_codeset_c s =
        if s.all isAsciiDigit = false then .error .NotANumber
        else if s.length % 2 ≠ 0 then .error .InvalidLength
        else .ok (codesetCSpec s)) ∧
    to_codeset_c ['0', '0'] = .ok [0x00] ∧
    to_codeset_c ['0', '1'] = .ok [0x01] ∧
    to_codeset_c ['1', '2', '3', '4'] = .ok [0x0c, 0x22] := by
  refine ⟨fun s => ?_, by decide, by decide, by decide⟩
  by_cases hd : s.all isAsciiDigit
  · rw [to_codeset_c, strBytes_of_digits s hd, if_neg (by simp [hd]),
      List.length_map, pairBytes_map_toNat]
    simp [hd]
  · simp only [Bool.not_eq_true] at hd
    simp [to_codeset_c, hd]

/-- Claim C7: `set_width` keeps a requested width in 2..=6 on SNBC and
falls back to the default 2 otherwise (e.g. 10 emits 2); on P3 it
keeps 1..=6 and falls back to the default 3 otherwise (e.g. 0 emits
3). -/
theorem claim7_set_width_clamp :
    (∀ (w h : Nat) (f : Font) (k : BarcodeType) (p : TextPosition),
      set_width ⟨.SNBC, w, h, f, k, p⟩ =
        .ok [0x1d, 0x77, if 2 ≤ w ∧ w ≤ 6 then w else 2] ∧
      set_width ⟨.P3, w, h, f, k, p⟩ =
        .ok [0x1d, 0x77, if 1 ≤ w ∧ w ≤ 6 then w else 3]) ∧
    set_width ⟨.SNBC, 10, 162, .Standard, .Code128, .Below⟩ =
      .ok [0x1d, 0x77, 2] ∧
    set_width ⟨.P3, 0, 162, .Standard, .Code128, .Below⟩ =
      .ok [0x1d, 0x77, 3] := by
  refine ⟨fun w h f k p => ⟨?_, ?_⟩, by decide, by decide⟩
  · by_cases hw : 2 ≤ w ∧ w ≤ 6 <;> simp [set_width, hw]
  · by_cases hw : 1 ≤ w ∧ w ≤ 6 <;> simp [set_width, hw]

/-- Claim C10: the guard of the SNBC Code128 Codeset C branch of
`Printer::barcode` — even byte length and all characters ASCII
digits — guarantees that `to_codeset_c` returns `Ok`, so the source's
`unwrap` of that result never panics. -/
theorem claim10_unwrap_safe (code : List Char)
    (heven : (strBytes code).length % 2 = 0)
    (hdig : code.all isAsciiDigit = true) :
    to_codeset_c code = .ok (pairBytes (strBytes code)) :=
  to_codeset_c_of_evenAllDigits code heven hdig

/-- Witness for claim C10 at the concrete text "1234". -/
theorem claim10_witness :
    (strBytes ['1', '2', '3', '4']).length % 2 = 0 ∧
    ['1', '2', '3', '4'].all isAsciiDigit = true ∧
    to_codeset_c ['1', '2', '3', '4'] =
      .ok (pairBytes (strBytes ['1', '2', '3', '4'])) :=
  ⟨by decide, by decide,
    claim10_unwrap_safe ['1', '2', '3', '4'] (by decide) (by decide)⟩

/-- Claim C5: on the Epic dialect the barcode operation ignores the
requested width entirely — for every requested width it writes the
same bytes, whose width selector is the fixed `[0x1d, 0x77, 0x02]`;
likewise `Barcode::set_width` on Epic always returns the fixed minimal
`[0x1d, 0x77, 0x01]`. -/
theorem claim5_epic_width_ignored :
    ∀ (code : List Char) (kind : BarcodeType) (position : TextPosition)
      (font : Font) (w w' h : Nat),
      barcode_bytes .Epic code kind position font w h =
        .ok ([0x1D, 0x48, 0x02] ++ [0x1D, 0x77, 0x02] ++ [0x1D, 0x6B, 0x49] ++
          [(strBytes code).length % 256] ++ strBytes code ++ [0x00]) ∧
      barcode_bytes .Epic code kind position font w h =
        barcode_bytes .Epic code kind position font w' h ∧
      set_width ⟨.Epic, w, h, font, kind, position⟩ = .ok [0x1d, 0x77, 0x01] := by
  intro code kind position font w w' h
  refine ⟨?_, ?_, rfl⟩ <;> simp [barcode_bytes]

/-- Claim C2: on the SNBC dialect, a successful status read is decoded
by the fixed bit table — byte 0 bit 3 gives Offline (else Online), bit
5 DoorOpen, bit 6 PaperFeed; byte 1 bit 3 AutoCutter, bit 5
Recoverable, bit 6 AutomaticallyRecoverable; byte 2's 2-bit fields at
bit-offsets 0 and 2 equal to 0b11 give PaperNearEnd and PaperEnd — and
the decode of bytes 0b00101000, 0, 0 is exactly {Offline, DoorOpen}. -/
theorem claim2_snbc_status_decode :
    (∀ b0 b1 b2 : Nat,
      (StatusError.Offline ∈ snbcStatusErrors b0 b1 b2 ↔ b0.testBit 3 = true) ∧
      (StatusError.Online ∈ snbcStatusErrors b0 b1 b2 ↔ b0.testBit 3 = false) ∧
      (StatusError.DoorOpen ∈ snbcStatusErrors b0 b1 b2 ↔ b0.testBit 5 = true) ∧
      (StatusError.PaperFeed ∈ snbcStatusErrors b0 b1 b2 ↔ b0.testBit 6 = true) ∧
      (StatusError.AutoCutter ∈ snbcStatusErrors b0 b1 b2 ↔ b1.testBit 3 = true) ∧
      (StatusError.Recoverable ∈ snbcStatusErrors b0 b1 b2 ↔ b1.testBit 5 = true) ∧
      (StatusError.AutomaticallyRecoverable ∈ snbcStatusErrors b0 b1 b2 ↔
        b1.testBit 6 = true) ∧
      (StatusError.PaperNearEnd ∈ snbcStatusErrors b0 b1 b2 ↔ b2 % 4 = 3) ∧
      (StatusError.PaperEnd ∈ snbcStatusErrors b0 b1 b2 ↔ b2 / 4 % 4 = 3)) ∧
    (∀ (buf : List Nat) (ep : Nat → EpicPollOutcome),
      get_status .SNBC ⟨some buf, ep⟩ =
        .error (snbcStatusErrors (buf.getD 0 0) (buf.getD 1 0) (buf.getD 2 0))) ∧
    snbcStatusErrors 0b00101000 0 0 = [.Offline, .DoorOpen] := by
  refine ⟨fun b0 b1 b2 =>
    ⟨snbc_mem_offline b0 b1 b2, snbc_mem_online b0 b1 b2,
      snbc_mem_doorOpen b0 b1 b2, snbc_mem_paperFeed b0 b1 b2,
      snbc_mem_autoCutter b0 b1 b2, snbc_mem_recoverable b0 b1 b2,
      snbc_mem_autoRecoverable b0 b1 b2, snbc_mem_paperNearEnd b0 b1 b2,
      snbc_mem_paperEnd b0 b1 b2⟩, fun buf ep => ?_, by decide⟩
  have h := snbcStatusErrors_ne_nil (buf.getD 0 0) (buf.getD 1 0) (buf.getD 2 0)
  simp only [get_status, statusErrorsOf]
  rw [if_neg h]

/-- Claim C9: on the SNBC dialect, every successful status read makes
`get_status` return `Err` with a non-empty flag list that contains
exactly one of Online or Offline, so the `Ok(())` empty-set outcome is
unreachable there. -/
theorem claim9_snbc_always_err :
    ∀ (buf : List Nat) (ep : Nat → EpicPollOutcome),
      ∃ errs, get_status .SNBC ⟨some buf, ep⟩ = .error errs ∧ errs ≠ [] ∧
        ((StatusError.Online ∈ errs) ↔ ¬ StatusError.Offline ∈ errs) ∧
        (StatusError.Online ∈ errs ∨ StatusError.Offline ∈ errs) := by
  intro buf ep
  have h := snbcStatusErrors_ne_nil (buf.getD 0 0) (buf.getD 1 0) (buf.getD 2 0)
  refine ⟨snbcStatusErrors (buf.getD 0 0) (buf.getD 1 0) (buf.getD 2 0),
    ?_, h, ?_, ?_⟩
  · simp only [get_status, statusErrorsOf]
    rw [if_neg h]
  · rw [snbc_mem_online, snbc_mem_offline]
    cases hb : (buf.getD 0 0).testBit 3 <;> simp
  · rw [snbc_mem_online, snbc_mem_offline]
    cases hb : (buf.getD 0 0).testBit 3 <;> simp

/-- The block the source builds equals the amended description. -/
theorem snbcPayloadBlock_eq_amended (code : List Char) :
    snbcPayloadBlock code = c6AmendedBlock code := by
  unfold snbcPayloadBlock c6AmendedBlock
  by_cases hc : (strBytes code).length % 2 = 0 ∧ code.all isAsciiDigit
  · rw [if_pos hc, if_pos hc, if_pos hc,
      to_codeset_c_of_evenAllDigits code hc.1 hc.2]
    simp [Except.toOption]
  · rw [if_neg hc, if_neg hc, if_neg hc]
    simp

/-- Claim C6 (amended): on SNBC, the bytes written after the
width/height/HRI-position/font/symbology selectors form a single
block: a one-byte total-length prefix (the count of the following
bytes, taken mod 256 — exact whenever the text is at most 253 bytes),
then the 0x7b code-set escape byte, then the codeset-selector byte
(0x43 for C when the text has even length and is all ASCII digits,
0x42 for B otherwise), then the encoded payload (digit-pair bytes for
C, the raw ASCII bytes unchanged for B). -/
theorem claim6_snbc_code128_framing (code : List Char)
    (position : TextPosition) (font : Font) (w h : Nat) :
    barcode_bytes .SNBC code .Code128 position font w h =
      .ok ((if 2 ≤ w ∧ w ≤ 6 then [0x1d, 0x77, w] else [0x1d, 0x77, 2]) ++
        [0x1d, 0x68, h] ++
        set_text_position ⟨.SNBC, w, h, font, .Code128, position⟩ ++
        set_font ⟨.SNBC, w, h, font, .Code128, position⟩ ++
        [0x1d, 0x6b, 0x49] ++ c6AmendedBlock code) ∧
    ((strBytes code).length ≤ 253 →
      (c6AmendedBlock code).getD 0 0 + 1 = (c6AmendedBlock code).length) := by
  constructor
  · by_cases hw : 2 ≤ w ∧ w ≤ 6 <;>
      simp [barcode_bytes, set_width, set_height, set_barcode_type, hw,
        snbcPayloadBlock_eq_amended]
  · intro hlen
    have hp : (if (strBytes code).length % 2 = 0 ∧ code.all isAsciiDigit then
        pairBytes (strBytes code) else strBytes code).length ≤
        (strBytes code).length := by
      split
      · exact pairBytes_length_le _
      · exact le_refl _
    unfold c6AmendedBlock
    simp only [List.getD_cons_zero, List.length_cons]
    rw [Nat.mod_eq_of_lt (by omega)]

/-- Witness for claim C6 at the concrete text "12" (Codeset C case). -/
theorem claim6_witness :
    barcode_bytes .SNBC ['1', '2'] .Code128 .Below .Standard 3 100 =
      .ok ((if 2 ≤ 3 ∧ 3 ≤ 6 then [0x1d, 0x77, 3] else [0x1d, 0x77, 2]) ++
        [0x1d, 0x68, 100] ++
        set_text_position ⟨.SNBC, 3, 100, .Standard, .Code128, .Below⟩ ++
        set_font ⟨.SNBC, 3, 100, .Standard, .Code128, .Below⟩ ++
        [0x1d, 0x6b, 0x49] ++ c6AmendedBlock ['1', '2']) ∧
    ((strBytes ['1', '2']).length ≤ 253 ∧
      (c6AmendedBlock ['1', '2']).getD 0 0 + 1 =
        (c6AmendedBlock ['1', '2']).length) :=
  ⟨(claim6_snbc_code128_framing ['1', '2'] .Below .Standard 3 100).1,
   by decide,
   (claim6_snbc_code128_framing ['1', '2'] .Below .Standard 3 100).2 (by decide)⟩

/-- Counterexample to claim C6 as stated: for the text "12" the block
the source writes is `[0x03, 0x7b, 0x43, 0x0c]` — the byte right after
the length prefix is the 0x7b escape, not the codeset-selector byte —
while the claimed prefix-selector-payload structure would be
`[0x02, 0x43, 0x0c]`. -/
theorem claim6_counterexample :
    barcode_bytes .SNBC ['1', '2'] .Code128 .Below .Standard 3 100 =
      .ok ([0x1d, 0x77, 3] ++ [0x1d, 0x68, 100] ++ [0x1d, 0x48, 0x02] ++
        [0x1d, 0x66, 0x00] ++ [0x1d, 0x6b, 0x49] ++ [0x03, 0x7b, 0x43, 0x0c]) ∧
    c6ClaimBlock ['1', '2'] = [0x02, 0x43, 0x0c] ∧
    barcode_bytes .SNBC ['1', '2'] .Code128 .Below .Standard 3 100 ≠
      .ok ([0x1d, 0x77, 3] ++ [0x1d, 0x68, 100] ++ [0x1d, 0x48, 0x02] ++
        [0x1d, 0x66, 0x00] ++ [0x1d, 0x6b, 0x49] ++ c6ClaimBlock ['1', '2']) :=
  ⟨by decide, by decide, by decide⟩

/-- Each Epic poll writes the fixed 5-byte command of its 1-based
sequence number, whatever the transport outcome. -/
theorem epicPollStep_cmd (d : List Nat) (i : Nat) (o : EpicPollOutcome) :
    (epicPollStep d i o).1 = epicCmd (i + 1) := by
  rcases o with ⟨w, r⟩
  cases r <;> rfl

/-- The errors one Epic poll pushes are exactly the per-poll
communication errors of its transport outcome. -/
theorem epicPollStep_errs (d : List Nat) (i : Nat) (o : EpicPollOutcome) :
    (epicPollStep d i o).2.1 = c8PollErrs o := by
  rcases o with ⟨w, r⟩
  cases r <;> cases w <;> rfl

/-- Claim C8: on the Epic dialect, whatever the transport outcomes,
all four polls are attempted — the command trace is always the four
fixed 5-byte commands with sequence numbers 1..4 — each poll
contributes a Communication error for a failed write and for a read
that did not transfer exactly one byte, and the flags decoded from the
collected bytes are appended regardless. -/
theorem claim8_epic_polls_continue (t : StatusTransport) :
    (epicStatusRun t).1 = [epicCmd 1, epicCmd 2, epicCmd 3, epicCmd 4] ∧
    (∀ c ∈ (epicStatusRun t).1, c.length = 5) ∧
    (epicStatusRun t).2.1 =
      c8PollErrs (t.epicPoll 0) ++ c8PollErrs (t.epicPoll 1) ++
      c8PollErrs (t.epicPoll 2) ++ c8PollErrs (t.epicPoll 3) ∧
    statusErrorsOf .Epic t =
      (epicStatusRun t).2.1 ++ epicDecode (epicStatusRun t).2.2 ∧
    get_status .Epic t =
      (if statusErrorsOf .Epic t = [] then .ok ()
       else .error (statusErrorsOf .Epic t)) := by
  refine ⟨?_, ?_, ?_, rfl, rfl⟩
  · simp only [epicStatusRun, epicPollStep_cmd]
  · intro c hc
    simp only [epicStatusRun, epicPollStep_cmd, List.mem_cons,
      List.not_mem_nil, or_false] at hc
    rcases hc with h | h | h | h <;> subst h <;> rfl
  · simp only [epicStatusRun, epicPollStep_errs]

/-- Claim C3 evaluated on the code: with all four Epic polls
succeeding and returning 0x08, 0x24, 0x08, 0x00, `get_status` yields
only {Offline, PaperEnd, AutoCutter} — DoorOpen is missing, because
the decode tests `data[1] >> 2 == 1` and `0x24 >>> 2 = 9`, even though
bit 2 of 0x24 (the documented cover-open bit) is set. -/
theorem claim3_epic_decode_missing_dooropen :
    get_status .Epic
        ⟨none, fun i => ⟨true, some [[0x08, 0x24, 0x08, 0x00].getD i 0]⟩⟩ =
      .error [.Offline, .PaperEnd, .AutoCutter] ∧
    StatusError.DoorOpen ∉
      statusErrorsOf .Epic
        ⟨none, fun i => ⟨true, some [[0x08, 0x24, 0x08, 0x00].getD i 0]⟩⟩ ∧
    (0x24 : Nat) >>> 2 = 9 ∧ (0x24 : Nat).testBit 2 = true :=
  ⟨rfl, by decide, by decide, by decide⟩

/-- Claim C4 evaluated on the code: for the upper-case single-density
token "S8" (8×30 all-white image), `bit_image` picks the
single-density header (marker [101]) but slices with the
triple-density band factor n = 3: two 24-row bands, column count 8 =
band length 24 / 3, instead of the four 8-row bands the claim's
n = 1 prescribes; the lower-case token "s8" does produce the four
8-row bands. -/
theorem claim4_bit_image_uppercase_token :
    bit_image [101] [102] [103] [104] ⟨8, 30, List.replicate 30 0⟩
        (some "S8") =
      line_space_bytes 0 ++
        ([101] ++ u16le 8 ++ List.replicate 24 0 ++ feed_bytes 1) ++
        ([101] ++ u16le 8 ++ List.replicate 24 0 ++ feed_bytes 1) ∧
    bit_image [101] [102] [103] [104] ⟨8, 30, List.replicate 30 0⟩
        (some "s8") =
      line_space_bytes 0 ++
        ([101] ++ u16le 8 ++ List.replicate 8 0 ++ feed_bytes 1) ++
        ([101] ++ u16le 8 ++ List.replicate 8 0 ++ feed_bytes 1) ++
        ([101] ++ u16le 8 ++ List.replicate 8 0 ++ feed_bytes 1) ++
        ([101] ++ u16le 8 ++ List.replicate 8 0 ++ feed_bytes 1) ∧
    ((⟨8, 30, List.replicate 30 0⟩ : Image).bitimage_lines (3 * 8)).length = 2 ∧
    ((⟨8, 30, List.replicate 30 0⟩ : Image).bitimage_lines (1 * 8)).length = 4 :=
  ⟨by decide, by decide, by decide, by decide⟩

end Posify
